import Mathlib

/-!
Shallow embedding of `src/app.py` (a Flask channel-mirror script) and proofs
about its cache gateway (`gist_get`, `gist_update`), catalog fetcher
(`get_all_videos`), classifier, and request handler (`channel_mirror`).

Modelling conventions:
* External services (HTTP store, video API) are deterministic oracles passed
  as explicit arguments; `none` / an error constructor stands for a raised
  exception or a missing key.
* `json.dumps` / `json.loads` are treated as the json library's bijection
  between documents and their serialized strings: a stored string is either
  `Content.good d` (the serialization of document `d`) or `Content.bad`
  (any string that is not a well-formed serialized cache document).
* Durations (`total_seconds()`) are rationals; timestamps are ISO-8601 `Z`
  strings compared lexicographically, which agrees with chronological order
  for the fixed-width format the API returns.
-/

/-- A video record as built by `get_all_videos` (lines 141-147 of app.py):
title, description, video_id, thumbnail URL and publish timestamp string. -/
structure Video where
  title : String
  description : String
  video_id : String
  thumbnail : String
  published_at : String
deriving DecidableEq

/-- A raw playlist item of one API page: the fields of
`item["snippet"]` / `item["contentDetails"]` that the fetcher reads.
`thumbHigh = none` models a snippet whose thumbnails lack the `high` key. -/
structure RawItem where
  title : String
  description : String
  videoId : String
  thumbHigh : Option String
  thumbDefault : String
  publishedAt : String
deriving DecidableEq

/-- One response of `youtube.playlistItems().list(...).execute()`:
the `items` array and the optional `nextPageToken`. -/
structure Page where
  items : List RawItem
  nextPageToken : Option String
deriving DecidableEq

/-- The record of one `playlistItems().list` request: the `maxResults`
argument and the `pageToken` argument it was issued with. -/
structure PlaylistRequest where
  maxResults : Nat
  pageToken : Option String
deriving DecidableEq

/-- Python truthiness of the `nextPageToken` value: the loop of
`get_all_videos` continues iff the token is present and non-empty
(`if not next_page_token: break`, lines 150-152). -/
def tokenContinues : Option String → Bool
  | none => false
  | some s => !(s == "")

/-- The date filter of `get_all_videos` (line 138): with a cutoff set,
an item published at or before the cutoff is skipped.  The route calls
the fetcher without a cutoff. -/
def cutoffSkips (cutoff : Option String) (publishedAt : String) : Bool :=
  match cutoff with
  | none => false
  | some c => decide (publishedAt ≤ c)

/-- Building one `video` dict from a raw item (lines 141-147): the
thumbnail is the `high` URL when present, else the `default` URL. -/
def toVideo (it : RawItem) : Video :=
  { title := it.title
    description := it.description
    video_id := it.videoId
    thumbnail := it.thumbHigh.getD it.thumbDefault
    published_at := it.publishedAt }

/-- The videos collected from one page (the `for item in response.get("items", [])`
body, lines 132-148): every item survives except those cut off by the date
filter.  There is no other filtering. -/
def pageVideos (cutoff : Option String) (p : Page) : List Video :=
  p.items.filterMap fun it =>
    if cutoffSkips cutoff it.publishedAt then none else some (toVideo it)

/-- The unsorted video list accumulated by the `while True` loop of
`get_all_videos`, run against the server's successive responses `pages`:
each iteration consumes one response, appends its videos, and breaks
when the response's token is falsy. -/
def collectPages (cutoff : Option String) : List Page → List Video
  | [] => []
  | p :: rest =>
    pageVideos cutoff p ++
      (if tokenContinues p.nextPageToken then collectPages cutoff rest else [])

/-- The pages the loop actually consumes from the response sequence. -/
def consumedPages : List Page → List Page
  | [] => []
  | p :: rest =>
    p :: (if tokenContinues p.nextPageToken then consumedPages rest else [])

/-- The requests the loop issues: every one with `maxResults=50`
(line 127), with the `pageToken` threaded from the previous response. -/
def requestLog (tok : Option String) : List Page → List PlaylistRequest
  | [] => []
  | p :: rest =>
    ⟨50, tok⟩ ::
      (if tokenContinues p.nextPageToken then requestLog p.nextPageToken rest else [])

/-- The descending-by-`published_at` comparison used as the sort key
(`videos.sort(key=..., reverse=True)`, line 155).  Python's sort and
`List.mergeSort` are both stable, so they agree on ties. -/
def pubDescLe (a b : Video) : Bool := decide (b.published_at ≤ a.published_at)

/-- `get_all_videos(youtube, playlist_id, published_after)` (lines 109-156):
page through the responses until a falsy token, filter by the optional
date cutoff, sort newest-first. -/
def get_all_videos (cutoff : Option String) (pages : List Page) : List Video :=
  (collectPages cutoff pages).mergeSort pubDescLe

/-- `pat` occurs at the head of `s` (character-wise prefix test). -/
def subAt : List Char → List Char → Bool
  | _, [] => true
  | [], _ :: _ => false
  | a :: as, b :: bs => a == b && subAt as bs

/-- Python's substring test `pat in s`, on exploded strings. -/
def hasSub : List Char → List Char → Bool
  | [], pat => pat.isEmpty
  | s@(_ :: rest), pat => subAt s pat || hasSub rest pat

/-- Python `x in v['title'].lower()` for a keyword `x`, lowercasing the
title character by character.  The keywords are ASCII, for which
`Char.toLower` and Python `str.lower` agree. -/
def titleHas (title kw : String) : Bool :=
  hasSub (title.toList.map Char.toLower) kw.toList

/-- The short-form keyword list of the fallback heuristic (line 196). -/
def SHORT_KEYWORDS : List String := ["#shorts", "#short", "shorts", "short:"]

/-- The fallback heuristic (lines 195-199): the lowercased title contains
one of the short-form keywords. -/
def isShortTitle (title : String) : Bool :=
  SHORT_KEYWORDS.any fun kw => titleHas title kw

/-- Classification of one video on the cache-hit per-item path
(lines 183-199).  `dur` is the duration oracle: `dur id = some d` models a
successful `videos().list` call whose parsed duration is `d` seconds;
`none` models any exception in the `try` block (network failure, empty
`items`, malformed duration).  Short iff duration ≤ 65 (line 190), with
the keyword fallback on failure. -/
def isShortHit (dur : String → Option ℚ) (v : Video) : Bool :=
  match dur v.video_id with
  | some d => decide (d ≤ 65)
  | none => isShortTitle v.title

/-- The per-item loop of the cache-hit path (lines 181-199): each video is
appended to exactly one of `(shorts, regular_videos)`, in traversal order. -/
def classifyHit (dur : String → Option ℚ) : List Video → List Video × List Video
  | [] => ([], [])
  | v :: rest =>
    let p := classifyHit dur rest
    if isShortHit dur v then (v :: p.1, p.2) else (p.1, v :: p.2)

/-- Python dict lookup for a dict built by comprehension over `entries`
(line 221-224): on duplicate keys the last entry wins. -/
def dictLookup (entries : List (String × ℚ)) (k : String) : Option ℚ :=
  (entries.reverse.find? fun e => e.1 == k).map Prod.snd

/-- The `items` of one batched `videos().list` response, as (id, duration
seconds) pairs, for a deterministic duration API `dur`: an id the API has
no duration for (e.g. a deleted video) is absent from the response. -/
def batchDurations (dur : String → Option ℚ) (ids : List String) : List (String × ℚ) :=
  ids.filterMap fun i => (dur i).map fun d => (i, d)

/-- The inner loop of the cache-miss path (lines 225-230): duration from
the batch's `duration_map` with default `999`, short iff ≤ 65. -/
def splitBatch (entries : List (String × ℚ)) : List Video → List Video × List Video
  | [] => ([], [])
  | v :: rest =>
    let p := splitBatch entries rest
    if (dictLookup entries v.video_id).getD 999 ≤ 65 then (v :: p.1, p.2)
    else (p.1, v :: p.2)

/-- The batched classification of the cache-miss path (lines 215-230):
ids are taken 50 at a time, one `videos().list` call per batch builds that
batch's `duration_map`, and the same slice of videos is split by it.
`dur` is the deterministic duration API. -/
def classifyMiss (dur : String → Option ℚ) (vs : List Video) : List Video × List Video :=
  match vs with
  | [] => ([], [])
  | v :: rest =>
    let batch := (v :: rest).take 50
    let p1 := splitBatch (batchDurations dur (batch.map Video.video_id)) batch
    let p2 := classifyMiss dur ((v :: rest).drop 50)
    (p1.1 ++ p2.1, p1.2 ++ p2.2)
termination_by vs.length
decreasing_by simp [List.length_drop]; omega

/-- Per-item meaning of the cache-miss classification: duration from the
API when present, else the default `999`; short iff ≤ 65. -/
def isShortMiss (dur : String → Option ℚ) (v : Video) : Bool :=
  decide ((dur v.video_id).getD 999 ≤ 65)

/-- The cache document (the JSON blob stored in the gist).  Each field is
`Option`al: `none` models the key being absent from the dict. -/
structure CacheDoc where
  channel_title : Option String
  channel_description : Option String
  videos : Option (List Video)
  shorts : Option (List Video)
  regular_videos : Option (List Video)
  last_update : Option String
deriving DecidableEq

/-- A stored string: `good d` is the `json.dumps` serialization of cache
document `d`; `bad` is any string that `json.loads` fails to parse into a
cache document.  `dumps`/`loads` form a bijection on documents. -/
inductive Content where
  | good (d : CacheDoc)
  | bad
deriving DecidableEq

/-- The two backing stores: the gist's `cache.json` file content (absent
when the gist has no such file) and the local `cache_local.json` file
(absent when the file does not exist). -/
structure StoreState where
  remote : Option Content
  localFile : Option Content
deriving DecidableEq

/-- Outcome of one HTTP call to the gist API: a raised exception
(`requests` error, timeout) or a status code. -/
inductive NetOutcome where
  | err
  | status (code : Nat)
deriving DecidableEq

/-- Exceptions the Python code can raise inside its `try` blocks. -/
inductive PyErr where
  | netErr
  | keyErr
  | jsonErr
  | ioErr
deriving DecidableEq

/-- The non-deterministic environment of one `gist_get` call:
the GET outcome, whether the local backup `json.dump` succeeds, and
whether the fallback `open`/read of the local file succeeds. -/
structure GetWorld where
  net : NetOutcome
  backupWriteOk : Bool
  localReadOk : Bool
deriving DecidableEq

/-- The body of `gist_get`'s first `try` block (lines 32-45), with the
exception it raises (if any) made explicit and the local-file state
threaded through: on status 200 the gist's `cache.json` content is
fetched (`KeyError` if the file is absent), parsed (`json.loads` error if
malformed), then written to the local backup (`Content.bad` models the
truncated file left behind when `json.dump` fails mid-write).
`.ok none` is the fall-through of a non-200 status (no `return`). -/
def gistGetTry (w : GetWorld) (st : StoreState) :
    Except PyErr (Option CacheDoc) × StoreState :=
  match w.net with
  | .err => (.error .netErr, st)
  | .status c =>
    if c = 200 then
      match st.remote with
      | none => (.error .keyErr, st)
      | some .bad => (.error .jsonErr, st)
      | some (.good d) =>
        if w.backupWriteOk then (.ok (some d), { st with localFile := some (.good d) })
        else (.error .ioErr, { st with localFile := some .bad })
    else (.ok none, st)

/-- The local-file fallback of `gist_get` (lines 48-55): if the file
exists, read and parse it, returning `none` on any failure. -/
def gistGetLocal (w : GetWorld) (st : StoreState) : Option CacheDoc :=
  match st.localFile with
  | none => none
  | some c =>
    if w.localReadOk then
      match c with
      | .good d => some d
      | .bad => none
    else none

/-- `gist_get()` (lines 29-57): try the gist; on an exception (caught by
the bare `except`) or a non-200 fall-through, fall back to the local
file; return the parsed document or `None`. -/
def gist_get (w : GetWorld) (st : StoreState) : Option CacheDoc × StoreState :=
  match gistGetTry w st with
  | (.ok (some d), st1) => (some d, st1)
  | (.ok none, st1) => (gistGetLocal w st1, st1)
  | (.error _, st1) => (gistGetLocal w st1, st1)

/-- The environment of one `gist_update` call: the PATCH outcome and
whether the local `json.dump` succeeds. -/
structure UpdWorld where
  net : NetOutcome
  localWriteOk : Bool
deriving DecidableEq

/-- `gist_update(cache_data)` (lines 60-91): PATCH the serialized
document to the gist (`success` iff status 200, in which case the gist's
file now holds the new content); then always attempt the local write
(`SAVE_LOCAL_CACHE` is `True`), any exception logged and swallowed;
finally raise `RuntimeError` iff `success` is false.  The returned `Bool`
is `true` iff the call raised. -/
def gist_update (w : UpdWorld) (st : StoreState) (doc : CacheDoc) :
    StoreState × Bool :=
  let success := decide (w.net = NetOutcome.status 200)
  let st1 := if success then { st with remote := some (.good doc) } else st
  let st2 := if w.localWriteOk then { st1 with localFile := some (.good doc) } else st1
  (st2, !success)

/-- Errors `channel_mirror` can raise: a `KeyError` reading
`cache['channel_title']` / `cache['channel_description']`, or the
`ValueError` of `get_channel_details` when the lookup returns no items. -/
inductive RouteErr where
  | keyErr
  | channelNotFound
deriving DecidableEq

/-- The data handed to the HTML template (lines 337-342):
`regular_videos` and `shorts` come from `cache.get(...)`, which in both
branches holds the freshly derived lists. -/
structure Ctx where
  channel_title : String
  channel_description : String
  regular_videos : List Video
  shorts : List Video
deriving DecidableEq

/-- The video-API environment of a cache miss: the channel lookup result
(`none` models the empty `items` that raises `ValueError`, line 101) and
the playlist response sequence. -/
structure FetchWorld where
  channel : Option (String × String × String)
  pages : List Page
deriving DecidableEq

/-- The cache-miss branch of `channel_mirror` (lines 206-241): fetch the
channel, download and sort all videos, classify them in batches of 50,
and build the fresh cache document (`videos` is
`regular_videos + shorts`, line 236) and the template context. -/
def missPath (fw : FetchWorld) (dur : String → Option ℚ) (now : String) :
    Except RouteErr (CacheDoc × Ctx) :=
  match fw.channel with
  | none => .error .channelNotFound
  | some (t, d, _pid) =>
    let vids := get_all_videos none fw.pages
    let p := classifyMiss dur vids
    let doc : CacheDoc :=
      { channel_title := some t
        channel_description := some d
        videos := some (p.2 ++ p.1)
        shorts := some p.1
        regular_videos := some p.2
        last_update := some now }
    .ok (doc, { channel_title := t, channel_description := d
                regular_videos := p.2, shorts := p.1 })

/-- The cache-hit branch of `channel_mirror` (lines 173-204): read the
cached title and description (`KeyError` if absent), re-classify the
cached `videos` item by item, and store the two lists back into the same
document (its `videos` field untouched). -/
def hitPath (dur : String → Option ℚ) (c : CacheDoc) (vs : List Video) :
    Except RouteErr (CacheDoc × Ctx) :=
  match c.channel_title, c.channel_description with
  | some t, some d =>
    let p := classifyHit dur vs
    let doc := { c with shorts := some p.1, regular_videos := some p.2 }
    .ok (doc, { channel_title := t, channel_description := d
                regular_videos := p.2, shorts := p.1 })
  | _, _ => .error .keyErr

/-- The pure data flow of the `channel_mirror` handler (lines 158-344):
the branch condition is `cache and 'videos' in cache and cache['videos']`
(line 173), true exactly when the document is present with a non-empty
`videos` list.  The result is the document passed to `gist_update`
together with the template context; the store write itself is
`gist_update`, modelled separately. -/
def channel_mirror (fw : FetchWorld) (dur : String → Option ℚ) (now : String)
    (cache : Option CacheDoc) : Except RouteErr (CacheDoc × Ctx) :=
  match cache with
  | some c =>
    match c.videos with
    | some (v :: vs) => hitPath dur c (v :: vs)
    | _ => missPath fw dur now
  | none => missPath fw dur now

theorem classifyHit_eq (dur : String → Option ℚ) (vs : List Video) :
    classifyHit dur vs =
      (vs.filter (isShortHit dur), vs.filter fun v => !isShortHit dur v) := by
  induction vs with
  | nil => rfl
  | cons v rest ih =>
    simp only [classifyHit, ih, List.filter_cons]
    by_cases h : isShortHit dur v <;> simp [h]

theorem mem_batchDurations (dur : String → Option ℚ) {ids : List String}
    {e : String × ℚ} (he : e ∈ batchDurations dur ids) : dur e.1 = some e.2 := by
  simp only [batchDurations, List.mem_filterMap] at he
  obtain ⟨i, _, hmap⟩ := he
  cases hd : dur i with
  | none => rw [hd] at hmap; simp at hmap
  | some d =>
    rw [hd] at hmap
    simp at hmap
    rw [← hmap]
    exact hd

theorem batchDurations_mem_key (dur : String → Option ℚ) {ids : List String}
    {k : String} {d : ℚ} (hk : k ∈ ids) (hd : dur k = some d) :
    (k, d) ∈ batchDurations dur ids := by
  simp only [batchDurations, List.mem_filterMap]
  exact ⟨k, hk, by simp [hd]⟩

theorem dictLookup_batch (dur : String → Option ℚ) (ids : List String)
    (k : String) (hk : k ∈ ids) :
    dictLookup (batchDurations dur ids) k = dur k := by
  cases hd : dur k with
  | none =>
    have hnone : (batchDurations dur ids).reverse.find? (fun e => e.1 == k) = none := by
      rw [List.find?_eq_none]
      intro e he hbeq
      rw [List.mem_reverse] at he
      have hdur := mem_batchDurations dur he
      have h1 : e.1 = k := by simpa using hbeq
      rw [h1, hd] at hdur
      exact Option.noConfusion hdur
    simp [dictLookup, hnone]
  | some d =>
    have hmem : (k, d) ∈ (batchDurations dur ids).reverse := by
      rw [List.mem_reverse]; exact batchDurations_mem_key dur hk hd
    have hsome : ((batchDurations dur ids).reverse.find? (fun e => e.1 == k)).isSome := by
      rw [List.find?_isSome]; exact ⟨(k, d), hmem, by simp⟩
    obtain ⟨e, he⟩ := Option.isSome_iff_exists.mp hsome
    have hp := List.find?_some he
    have hmem2 := List.mem_of_find?_eq_some he
    rw [List.mem_reverse] at hmem2
    have hdur := mem_batchDurations dur hmem2
    have h1 : e.1 = k := by simpa using hp
    rw [h1, hd] at hdur
    simp only [dictLookup, he, Option.map_some']
    rw [← hdur]

theorem splitBatch_eq (dur : String → Option ℚ) (entries : List (String × ℚ))
    (vs : List Video)
    (h : ∀ v ∈ vs, dictLookup entries v.video_id = dur v.video_id) :
    splitBatch entries vs =
      (vs.filter (isShortMiss dur), vs.filter fun v => !isShortMiss dur v) := by
  induction vs with
  | nil => rfl
  | cons v rest ih =>
    have hv := h v (List.mem_cons_self v rest)
    have hrest : ∀ u ∈ rest, dictLookup entries u.video_id = dur u.video_id :=
      fun u hu => h u (List.mem_cons_of_mem v hu)
    simp only [splitBatch, ih hrest, List.filter_cons, hv, isShortMiss]
    by_cases hp : (dur v.video_id).getD 999 ≤ 65 <;> simp [hp]


theorem classifyMiss_eq (dur : String → Option ℚ) (vs : List Video) :
    classifyMiss dur vs =
      (vs.filter (isShortMiss dur), vs.filter fun v => !isShortMiss dur v) := by
  induction vs using classifyMiss.induct dur with
  | case1 => rw [classifyMiss]; rfl
  | case2 v rest ih =>
    rw [classifyMiss]
    have hbatch : ∀ u ∈ (v :: rest).take 50,
        dictLookup (batchDurations dur (((v :: rest).take 50).map Video.video_id))
          u.video_id = dur u.video_id := by
      intro u hu
      exact dictLookup_batch dur _ _ (List.mem_map_of_mem Video.video_id hu)
    rw [splitBatch_eq dur _ _ hbatch, ih]
    conv_rhs =>
      rw [← List.take_append_drop 50 (v :: rest), List.filter_append, List.filter_append]

theorem pubDescLe_trans (a b c : Video) (h1 : pubDescLe a b = true)
    (h2 : pubDescLe b c = true) : pubDescLe a c = true := by
  simp only [pubDescLe, decide_eq_true_eq] at *
  exact le_trans h2 h1

theorem pubDescLe_total (a b : Video) : (pubDescLe a b || pubDescLe b a) = true := by
  simp only [pubDescLe, Bool.or_eq_true, decide_eq_true_eq]
  exact le_total b.published_at a.published_at

theorem pageVideos_none (p : Page) : pageVideos none p = p.items.map toVideo := by
  simp only [pageVideos, cutoffSkips, if_false, Bool.false_eq_true]
  exact congrFun (List.filterMap_eq_map toVideo) p.items

theorem mem_collectPages (pages : List Page) (q : Page) (hq : q ∈ consumedPages pages)
    (it : RawItem) (hit : it ∈ q.items) : toVideo it ∈ collectPages none pages := by
  induction pages with
  | nil => simp [consumedPages] at hq
  | cons p rest ih =>
    simp only [consumedPages] at hq
    rcases List.mem_cons.mp hq with h | h
    · subst h
      rw [collectPages]
      apply List.mem_append_left
      rw [pageVideos_none]
      exact List.mem_map_of_mem toVideo hit
    · by_cases hc : tokenContinues p.nextPageToken
      · rw [if_pos hc] at h
        rw [collectPages]
        apply List.mem_append_right
        rw [if_pos hc]
        exact ih h
      · rw [if_neg hc] at h
        simp at h

theorem requestLog_all_50 (pages : List Page) :
    ∀ tok, ∀ r ∈ requestLog tok pages, r.maxResults = 50 := by
  induction pages with
  | nil => intro tok r hr; simp [requestLog] at hr
  | cons p rest ih =>
    intro tok r hr
    simp only [requestLog] at hr
    rcases List.mem_cons.mp hr with h | h
    · rw [h]
    · by_cases hc : tokenContinues p.nextPageToken
      · rw [if_pos hc] at h
        exact ih _ r h
      · rw [if_neg hc] at h
        simp at h

theorem consumedPages_stop (a : List Page) (p : Page) (b : List Page)
    (ha : ∀ q ∈ a, tokenContinues q.nextPageToken = true)
    (hp : tokenContinues p.nextPageToken = false) :
    consumedPages (a ++ p :: b) = a ++ [p] := by
  induction a with
  | nil => simp [consumedPages, hp]
  | cons q a2 ih =>
    have hq := ha q (List.mem_cons_self _ _)
    simp [consumedPages, hq, ih fun x hx => ha x (List.mem_cons_of_mem _ hx)]

theorem collectPages_stop (cutoff : Option String) (a : List Page) (p : Page)
    (b : List Page) (ha : ∀ q ∈ a, tokenContinues q.nextPageToken = true)
    (hp : tokenContinues p.nextPageToken = false) :
    collectPages cutoff (a ++ p :: b) = collectPages cutoff (a ++ [p]) := by
  induction a with
  | nil => simp [collectPages, hp]
  | cons q a2 ih =>
    have hq := ha q (List.mem_cons_self _ _)
    simp [collectPages, hq, ih fun x hx => ha x (List.mem_cons_of_mem _ hx)]

theorem filter_disjoint {α : Type} (p : α → Bool) (l : List α) :
    ∀ v ∈ l.filter fun x => !p x, v ∉ l.filter p := by
  intro v hv hv2
  rw [List.mem_filter] at hv hv2
  rw [hv2.2] at hv
  simp at hv

theorem filter_partition_perm {α : Type} (p : α → Bool) (l : List α) :
    ((l.filter fun x => !p x) ++ l.filter p).Perm l :=
  List.perm_append_comm.trans (List.filter_append_perm p l)

/-- C1: for every fetched item whose duration lookup succeeds, both the
cache-hit per-item classifier and the cache-miss batched classifier mark
it short-form iff its duration is at most 65 seconds (so 65 s → short,
66 s → regular). -/
theorem short_iff_duration_le_65 (dur : String → Option ℚ) (vs : List Video)
    (v : Video) (d : ℚ) (hv : v ∈ vs) (hd : dur v.video_id = some d) :
    ((v ∈ (classifyHit dur vs).1 ↔ d ≤ 65) ∧ (v ∈ (classifyHit dur vs).2 ↔ 65 < d)) ∧
    ((v ∈ (classifyMiss dur vs).1 ↔ d ≤ 65) ∧ (v ∈ (classifyMiss dur vs).2 ↔ 65 < d)) := by
  rw [classifyHit_eq, classifyMiss_eq]
  simp [List.mem_filter, isShortHit, isShortMiss, hd, hv, not_le]

/-- Witness for C1: a 65-second item is short-form and a 66-second item is
regular, in both classification paths. -/
theorem short_iff_duration_le_65_witness :
    ((⟨"a", "b", "i", "t", "p"⟩ : Video) ∈
      (classifyHit (fun _ => some 65) [⟨"a", "b", "i", "t", "p"⟩]).1) ∧
    ((⟨"a", "b", "i", "t", "p"⟩ : Video) ∈
      (classifyMiss (fun _ => some 65) [⟨"a", "b", "i", "t", "p"⟩]).1) ∧
    ((⟨"a", "b", "i", "t", "p"⟩ : Video) ∈
      (classifyHit (fun _ => some 66) [⟨"a", "b", "i", "t", "p"⟩]).2) ∧
    ((⟨"a", "b", "i", "t", "p"⟩ : Video) ∈
      (classifyMiss (fun _ => some 66) [⟨"a", "b", "i", "t", "p"⟩]).2) := by
  have h65 := short_iff_duration_le_65 (fun _ => some 65) [⟨"a", "b", "i", "t", "p"⟩]
    ⟨"a", "b", "i", "t", "p"⟩ 65 (List.mem_cons_self _ _) rfl
  have h66 := short_iff_duration_le_65 (fun _ => some 66) [⟨"a", "b", "i", "t", "p"⟩]
    ⟨"a", "b", "i", "t", "p"⟩ 66 (List.mem_cons_self _ _) rfl
  exact ⟨h65.1.1.mpr (by norm_num), h65.2.1.mpr (by norm_num),
    h66.1.2.mpr (by norm_num), h66.2.2.mpr (by norm_num)⟩

/-- Counterexample to C2: on the cache-miss batched path an item whose
duration is missing from the batch response is classified regular even
though its title contains "#shorts". -/
theorem miss_path_ignores_title_cex :
    isShortTitle "clip #shorts" = true ∧
    (⟨"clip #shorts", "", "i", "t", "p"⟩ : Video) ∈
      (classifyMiss (fun _ => none) [⟨"clip #shorts", "", "i", "t", "p"⟩]).2 ∧
    (⟨"clip #shorts", "", "i", "t", "p"⟩ : Video) ∉
      (classifyMiss (fun _ => none) [⟨"clip #shorts", "", "i", "t", "p"⟩]).1 := by
  refine ⟨by decide, ?_, ?_⟩ <;> (rw [classifyMiss_eq]; decide)

/-- C2 (amended): the keyword fallback applies only on the cache-hit
per-item path: there, an item whose duration lookup fails is short-form
iff its lowercased title contains a short-form keyword; on the cache-miss
batched path an item missing from the batch response gets the default
duration 999 and is always classified regular. -/
theorem title_fallback_hit_only (dur : String → Option ℚ) (vs : List Video)
    (v : Video) (hv : v ∈ vs) (hd : dur v.video_id = none) :
    (v ∈ (classifyHit dur vs).1 ↔ isShortTitle v.title = true) ∧
    (v ∈ (classifyHit dur vs).2 ↔ isShortTitle v.title = false) ∧
    v ∈ (classifyMiss dur vs).2 ∧ v ∉ (classifyMiss dur vs).1 := by
  rw [classifyHit_eq, classifyMiss_eq]
  simp [List.mem_filter, isShortHit, isShortMiss, hd, hv]
  norm_num

/-- Witness for C2 (amended): duration-lookup failure with a "#shorts"
title is short-form on the hit path and regular on the miss path. -/
theorem title_fallback_hit_only_witness :
    ((⟨"x #shorts", "", "i", "t", "p"⟩ : Video) ∈
      (classifyHit (fun _ => none) [⟨"x #shorts", "", "i", "t", "p"⟩]).1) ∧
    ((⟨"x #shorts", "", "i", "t", "p"⟩ : Video) ∈
      (classifyMiss (fun _ => none) [⟨"x #shorts", "", "i", "t", "p"⟩]).2) := by
  have h := title_fallback_hit_only (fun _ => none) [⟨"x #shorts", "", "i", "t", "p"⟩]
    ⟨"x #shorts", "", "i", "t", "p"⟩ (List.mem_cons_self _ _) rfl
  exact ⟨h.1.mpr (by decide), h.2.2.1⟩

/-- C4: the fetch loop stops after the first response whose continuation
token is absent or empty (even a zero-item response), never consuming the
pages behind it, and every request it issues carries `maxResults = 50`. -/
theorem pagination_stops_at_missing_token (cutoff : Option String) (a : List Page)
    (p : Page) (b : List Page)
    (ha : ∀ q ∈ a, tokenContinues q.nextPageToken = true)
    (hp : tokenContinues p.nextPageToken = false) :
    consumedPages (a ++ p :: b) = a ++ [p] ∧
    get_all_videos cutoff (a ++ p :: b) = get_all_videos cutoff (a ++ [p]) ∧
    ∀ r ∈ requestLog none (a ++ p :: b), r.maxResults = 50 := by
  refine ⟨consumedPages_stop a p b ha hp, ?_,
    fun r hr => requestLog_all_50 _ none r hr⟩
  rw [get_all_videos, get_all_videos, collectPages_stop cutoff a p b ha hp]

/-- Witness for C4: a zero-item response with an empty-string token stops
the loop, leaving a later junk page unconsumed. -/
theorem pagination_stops_at_missing_token_witness :
    consumedPages [⟨[], some "t1"⟩, ⟨[], some ""⟩,
        ⟨[⟨"x", "x", "x", none, "u", "p"⟩], some "t2"⟩] =
      [⟨[], some "t1"⟩, ⟨[], some ""⟩] ∧
    get_all_videos none [⟨[], some "t1"⟩, ⟨[], some ""⟩,
        ⟨[⟨"x", "x", "x", none, "u", "p"⟩], some "t2"⟩] =
      get_all_videos none [⟨[], some "t1"⟩, ⟨[], some ""⟩] ∧
    ∀ r ∈ requestLog none [⟨[], some "t1"⟩, ⟨[], some ""⟩,
        ⟨[⟨"x", "x", "x", none, "u", "p"⟩], some "t2"⟩], r.maxResults = 50 := by
  have h := pagination_stops_at_missing_token none [⟨[], some "t1"⟩] ⟨[], some ""⟩
    [⟨[⟨"x", "x", "x", none, "u", "p"⟩], some "t2"⟩] (by decide) (by decide)
  exact h

/-- Counterexample to C5: an entry titled "Private video" is not skipped:
it appears in the list the fetcher returns. -/
theorem private_video_not_skipped_cex :
    toVideo ⟨"Private video", "", "pv1", none, "u", "2024-01-02T00:00:00Z"⟩ ∈
      get_all_videos none
        [⟨[⟨"Private video", "", "pv1", none, "u", "2024-01-02T00:00:00Z"⟩], none⟩] := by
  refine ((List.mergeSort_perm _ _).mem_iff).mpr ?_
  exact mem_collectPages _
    ⟨[⟨"Private video", "", "pv1", none, "u", "2024-01-02T00:00:00Z"⟩], none⟩
    (by decide) ⟨"Private video", "", "pv1", none, "u", "2024-01-02T00:00:00Z"⟩
    (by decide)

/-- C5 (amended): the fetcher does not skip any entry: every item of
every consumed page (private and deleted placeholders included) appears
in the returned list, which is sorted by publish timestamp descending. -/
theorem fetcher_keeps_all_items_sorted (pages : List Page) :
    (∀ q ∈ consumedPages pages, ∀ it ∈ q.items,
      toVideo it ∈ get_all_videos none pages) ∧
    (get_all_videos none pages).Pairwise (fun x y => pubDescLe x y = true) := by
  constructor
  · intro q hq it hit
    rw [get_all_videos]
    exact ((List.mergeSort_perm _ _).mem_iff).mpr (mem_collectPages pages q hq it hit)
  · exact List.sorted_mergeSort pubDescLe_trans pubDescLe_total _

/-- Witness for C5 (amended): both conjuncts at a concrete two-page
sequence whose first page holds a "Deleted video" placeholder. -/
theorem fetcher_keeps_all_items_sorted_witness :
    (toVideo ⟨"Deleted video", "", "d1", none, "u", "2024-03-01T00:00:00Z"⟩ ∈
      get_all_videos none [⟨[⟨"Deleted video", "", "d1", none, "u", "2024-03-01T00:00:00Z"⟩], some "t"⟩,
        ⟨[⟨"v2", "", "d2", none, "u", "2024-04-01T00:00:00Z"⟩], none⟩]) ∧
    (get_all_videos none [⟨[⟨"Deleted video", "", "d1", none, "u", "2024-03-01T00:00:00Z"⟩], some "t"⟩,
        ⟨[⟨"v2", "", "d2", none, "u", "2024-04-01T00:00:00Z"⟩], none⟩]).Pairwise
      (fun x y => pubDescLe x y = true) := by
  have h := fetcher_keeps_all_items_sorted
    [⟨[⟨"Deleted video", "", "d1", none, "u", "2024-03-01T00:00:00Z"⟩], some "t"⟩,
      ⟨[⟨"v2", "", "d2", none, "u", "2024-04-01T00:00:00Z"⟩], none⟩]
  exact ⟨h.1 ⟨[⟨"Deleted video", "", "d1", none, "u", "2024-03-01T00:00:00Z"⟩], some "t"⟩
    (by decide) ⟨"Deleted video", "", "d1", none, "u", "2024-03-01T00:00:00Z"⟩ (by decide), h.2⟩

/-- Counterexample to C6: the local-file write succeeds (the file now
holds the new document) yet `gist_update` still raises, because `success`
is set only by the remote PATCH. -/
theorem update_raises_despite_local_write_cex :
    (gist_update ⟨.status 403, true⟩ ⟨none, none⟩
        ⟨some "t", some "d", some [], some [], some [], some "ts"⟩).2 = true ∧
    (gist_update ⟨.status 403, true⟩ ⟨none, none⟩
        ⟨some "t", some "d", some [], some [], some [], some "ts"⟩).1.localFile =
      some (.good ⟨some "t", some "d", some [], some [], some [], some "ts"⟩) := by
  constructor <;> rfl

/-- C6 (amended): `gist_update` raises if and only if the remote PATCH
did not return status 200; whether the local-file write succeeded has no
bearing on whether it raises. -/
theorem update_raises_iff_remote_patch_fails (w : UpdWorld) (st : StoreState)
    (doc : CacheDoc) :
    (gist_update w st doc).2 = true ↔ w.net ≠ NetOutcome.status 200 := by
  simp [gist_update]

/-- C7: `gist_get` never raises: every exception of the remote attempt is
caught and routed to the local-file fallback, a non-200 status falls
through to the same fallback, a successful parse is returned, and `none`
comes back only after the local fallback also produced nothing. -/
theorem gist_get_never_raises (w : GetWorld) (st : StoreState) :
    (∀ e st1, gistGetTry w st = (Except.error e, st1) →
      gist_get w st = (gistGetLocal w st1, st1)) ∧
    (∀ st1, gistGetTry w st = (Except.ok none, st1) →
      gist_get w st = (gistGetLocal w st1, st1)) ∧
    (∀ d st1, gistGetTry w st = (Except.ok (some d), st1) →
      gist_get w st = (some d, st1)) ∧
    ((gist_get w st).1 = none → gistGetLocal w (gistGetTry w st).2 = none) := by
  refine ⟨?_, ?_, ?_, ?_⟩
  · intro e st1 h; simp [gist_get, h]
  · intro st1 h; simp [gist_get, h]
  · intro d st1 h; simp [gist_get, h]
  · intro h
    rcases w with ⟨net, bwk, lrk⟩
    rcases net with _ | c
    · simpa [gist_get, gistGetTry] using h
    · by_cases hc : c = 200
      · subst hc
        rcases st with ⟨rem, loc⟩
        rcases rem with _ | cont
        · simpa [gist_get, gistGetTry] using h
        · rcases cont with d | _
          · cases bwk with
            | true => simp [gist_get, gistGetTry] at h
            | false => cases lrk <;> simp [gist_get, gistGetTry, gistGetLocal]
          · simpa [gist_get, gistGetTry] using h
      · simpa [gist_get, gistGetTry, hc] using h

/-- Witness for C7: a network exception with a readable local file yields
the locally cached document. -/
theorem gist_get_never_raises_witness :
    gist_get ⟨.err, true, true⟩
        ⟨none, some (.good ⟨some "t", none, none, none, none, none⟩)⟩ =
      (some ⟨some "t", none, none, none, none, none⟩,
        ⟨none, some (.good ⟨some "t", none, none, none, none, none⟩)⟩) := by
  have h := (gist_get_never_raises ⟨.err, true, true⟩
    ⟨none, some (.good ⟨some "t", none, none, none, none, none⟩)⟩).1 .netErr
    ⟨none, some (.good ⟨some "t", none, none, none, none, none⟩)⟩ rfl
  exact h.trans rfl

/-- C8: writing a document with `gist_update` (a PATCH the store accepts)
and then reading with `gist_get` (a GET the store answers, the parsed
document backed up locally) returns the document that was written. -/
theorem cache_round_trip (doc : CacheDoc) (st : StoreState) (w1 : UpdWorld)
    (w2 : GetWorld) (h1 : w1.net = NetOutcome.status 200)
    (h2 : w2.net = NetOutcome.status 200) (h3 : w2.backupWriteOk = true) :
    (gist_get w2 (gist_update w1 st doc).1).1 = some doc := by
  cases hlw : w1.localWriteOk <;>
    simp [gist_update, gist_get, gistGetTry, h1, h2, h3, hlw]

/-- Witness for C8: a concrete round trip through a store whose gist
previously held unparseable content. -/
theorem cache_round_trip_witness :
    (gist_get ⟨.status 200, true, true⟩
        (gist_update ⟨.status 200, false⟩ ⟨some .bad, none⟩
          ⟨some "t", some "d", some [], some [], some [], some "ts"⟩).1).1 =
      some ⟨some "t", some "d", some [], some [], some [], some "ts"⟩ :=
  cache_round_trip ⟨some "t", some "d", some [], some [], some [], some "ts"⟩
    ⟨some .bad, none⟩ ⟨.status 200, false⟩ ⟨.status 200, true, true⟩ rfl rfl rfl

/-- C10: when the remote PATCH fails and the local write succeeds,
`gist_update` raises, but the local cache file has by then already been
overwritten with the new document. -/
theorem failed_update_overwrites_local (w : UpdWorld) (st : StoreState)
    (doc : CacheDoc) (h1 : w.net ≠ NetOutcome.status 200)
    (h2 : w.localWriteOk = true) :
    (gist_update w st doc).2 = true ∧
    (gist_update w st doc).1.localFile = some (.good doc) := by
  simp [gist_update, h1, h2]

/-- Witness for C10: a timed-out PATCH with a healthy local disk. -/
theorem failed_update_overwrites_local_witness :
    (gist_update ⟨.err, true⟩ ⟨some .bad, some .bad⟩
        ⟨some "t", none, some [], none, none, none⟩).2 = true ∧
    (gist_update ⟨.err, true⟩ ⟨some .bad, some .bad⟩
        ⟨some "t", none, some [], none, none, none⟩).1.localFile =
      some (.good ⟨some "t", none, some [], none, none, none⟩) :=
  failed_update_overwrites_local ⟨.err, true⟩ ⟨some .bad, some .bad⟩
    ⟨some "t", none, some [], none, none, none⟩ (by decide) rfl

theorem missPath_partition (fw : FetchWorld) (dur : String → Option ℚ)
    (now : String) (doc : CacheDoc) (ctx : Ctx)
    (h : missPath fw dur now = .ok (doc, ctx)) :
    ∃ vs s r, doc.videos = some vs ∧ doc.shorts = some s ∧
      doc.regular_videos = some r ∧ (r ++ s).Perm vs ∧ ∀ v ∈ r, v ∉ s := by
  rcases hch : fw.channel with _ | ⟨t, d, pid⟩
  · rw [missPath, hch] at h
    exact absurd h (by simp)
  · rw [missPath, hch] at h
    simp only [Except.ok.injEq, Prod.mk.injEq] at h
    obtain ⟨hdoc, -⟩ := h
    subst hdoc
    refine ⟨_, _, _, rfl, rfl, rfl, List.Perm.refl _, ?_⟩
    rw [classifyMiss_eq]
    exact filter_disjoint _ _

theorem hitPath_partition (dur : String → Option ℚ) (c : CacheDoc)
    (vs : List Video) (doc : CacheDoc) (ctx : Ctx) (hvs : c.videos = some vs)
    (h : hitPath dur c vs = .ok (doc, ctx)) :
    ∃ vs2 s r, doc.videos = some vs2 ∧ doc.shorts = some s ∧
      doc.regular_videos = some r ∧ (r ++ s).Perm vs2 ∧ ∀ v ∈ r, v ∉ s := by
  rcases ht : c.channel_title with _ | t
  · rw [hitPath, ht] at h
    exact absurd h (by simp)
  · rcases hd : c.channel_description with _ | d
    · rw [hitPath, ht, hd] at h
      exact absurd h (by simp)
    · rw [hitPath, ht, hd] at h
      simp only [Except.ok.injEq, Prod.mk.injEq] at h
      obtain ⟨hdoc, -⟩ := h
      subst hdoc
      refine ⟨vs, (classifyHit dur vs).1, (classifyHit dur vs).2, hvs, rfl, rfl, ?_, ?_⟩
      · rw [classifyHit_eq]
        exact filter_partition_perm _ _
      · rw [classifyHit_eq]
        exact filter_disjoint _ _

/-- C3: every cache document the handler builds for writing (on the
cache-hit and on the cache-miss path alike) satisfies the partition
invariant: `regular_videos ++ shorts` is a permutation of `videos`, and
no video is in both lists. -/
theorem cache_partition_invariant (fw : FetchWorld) (dur : String → Option ℚ)
    (now : String) (cache : Option CacheDoc) (doc : CacheDoc) (ctx : Ctx)
    (h : channel_mirror fw dur now cache = .ok (doc, ctx)) :
    ∃ vs s r, doc.videos = some vs ∧ doc.shorts = some s ∧
      doc.regular_videos = some r ∧ (r ++ s).Perm vs ∧ ∀ v ∈ r, v ∉ s := by
  rcases cache with _ | c
  · exact missPath_partition fw dur now doc ctx h
  · rcases hv : c.videos with _ | vs
    · rw [channel_mirror, hv] at h
      exact missPath_partition fw dur now doc ctx h
    · rcases vs with _ | ⟨v, rest⟩
      · rw [channel_mirror, hv] at h
        exact missPath_partition fw dur now doc ctx h
      · rw [channel_mirror, hv] at h
        exact hitPath_partition dur c (v :: rest) doc ctx hv h

/-- Witness for C3: the partition invariant at a concrete cache-hit run
over a one-video cached document. -/
theorem cache_partition_invariant_witness :
    ∃ vs s r,
      (⟨some "t", some "d", some [⟨"a", "b", "i", "u", "p"⟩],
        some [⟨"a", "b", "i", "u", "p"⟩], some [], none⟩ : CacheDoc).videos = some vs ∧
      (⟨some "t", some "d", some [⟨"a", "b", "i", "u", "p"⟩],
        some [⟨"a", "b", "i", "u", "p"⟩], some [], none⟩ : CacheDoc).shorts = some s ∧
      (⟨some "t", some "d", some [⟨"a", "b", "i", "u", "p"⟩],
        some [⟨"a", "b", "i", "u", "p"⟩], some [], none⟩ : CacheDoc).regular_videos = some r ∧
      (r ++ s).Perm vs ∧ ∀ v ∈ r, v ∉ s :=
  cache_partition_invariant ⟨none, []⟩ (fun _ => some 30) "n"
    (some ⟨some "t", some "d", some [⟨"a", "b", "i", "u", "p"⟩], none, none, none⟩)
    ⟨some "t", some "d", some [⟨"a", "b", "i", "u", "p"⟩],
      some [⟨"a", "b", "i", "u", "p"⟩], some [], none⟩
    ⟨"t", "d", [], [⟨"a", "b", "i", "u", "p"⟩]⟩ (by rfl)

/-- C9: a present cache document whose `videos` key is missing or holds
an empty list is handled exactly like a cache miss: the run is equal,
result for result, to the run with no cached document, so the full
download happens and no other cached field is consulted. -/
theorem empty_videos_treated_as_miss (fw : FetchWorld) (dur : String → Option ℚ)
    (now : String) (d : CacheDoc) (h : d.videos = none ∨ d.videos = some []) :
    channel_mirror fw dur now (some d) = channel_mirror fw dur now none := by
  rcases h with h | h <;> simp [channel_mirror, h]

/-- Witness for C9: a document with every other field populated but an
empty `videos` list runs identically to no document at all. -/
theorem empty_videos_treated_as_miss_witness :
    channel_mirror ⟨some ("t", "d", "u"), []⟩ (fun _ => none) "n"
        (some ⟨some "x", some "y", some [], none, none, some "z"⟩) =
      channel_mirror ⟨some ("t", "d", "u"), []⟩ (fun _ => none) "n" none :=
  empty_videos_treated_as_miss ⟨some ("t", "d", "u"), []⟩ (fun _ => none) "n"
    ⟨some "x", some "y", some [], none, none, some "z"⟩ (Or.inr rfl)
